import Mathlib

/-!
Verification of the language-metadata reconciliation scripts (Weblate sync
tooling): a shallow embedding in Lean 4 of the code normalizer, the
plural-forms parser, the plural-rule resolution, the alias matcher, the
reconciler's classification, the HTTP-payload construction, the paginated
listing, and the deletion tool's exclusion filtering, together with theorems
about them.

Python strings are modelled as Lean `String` / `List Char`; Python `None` as
`Option.none`; Python dictionaries (with distinct keys) as association lists
looked up with `List.find?`; Python truthiness of an optional string (`if s:`)
as "present and non-empty".
-/

namespace WeblateSync

/-! ## String helpers (Python `str.strip`, `str.rstrip(";")`, …) -/

/-- Python `str.strip()` on the left: drop leading whitespace. -/
def lstripL (l : List Char) : List Char := l.dropWhile Char.isWhitespace

/-- Drop trailing characters satisfying `p` (Python `str.rstrip`). -/
def rstripByL (p : Char → Bool) (l : List Char) : List Char :=
  (l.reverse.dropWhile p).reverse

/-- Python `str.strip()`: drop leading and trailing whitespace. -/
def stripL (l : List Char) : List Char := rstripByL Char.isWhitespace (lstripL l)

/-- Python `str.strip()` on a `String`. -/
def pyStrip (s : String) : String := String.mk (stripL s.toList)


/-! ## Code normalizer (`canon` in sync.py, create_languages_weblate.py,
create_languages_weblate_v2.py — identical bodies) -/

/-- `'-'` → `'_'` (Python `replace("-", "_")`, character-wise). -/
def replDash (c : Char) : Char := if c = '-' then '_' else c

/-- Lower-case only the first character. -/
def lowerFirstL : List Char → List Char
  | [] => []
  | c :: rest => c.toLower :: rest

/-- Embeds `canon` on the character list:
`t = code.strip().replace("-", "_"); return (t[0].lower() + t[1:]) if t else t`. -/
def canonL (l : List Char) : List Char :=
  lowerFirstL ((stripL l).map replDash)

/-- `canon(code)` from the source scripts: strip surrounding whitespace,
replace every `-` with `_`, lower-case only the first character; the empty
string maps to the empty string. -/
def canon (code : String) : String := String.mk (canonL code.toList)

/-- Modelled from the spec's words for comparison (refinement): §4.1 "Rule:
replace every `-` with `_`; lower-case only the first character; leave the
rest untouched" — no whitespace stripping. -/
def canonSpecRule (code : String) : String :=
  String.mk (lowerFirstL (code.toList.map replDash))

/-- `true` iff the list does not start with a character satisfying `p`. -/
def headOkB (p : Char → Bool) : List Char → Bool
  | [] => true
  | c :: _ => !p c

/-- A list is "stripped" when neither end carries whitespace. -/
def strippedB (l : List Char) : Bool :=
  headOkB Char.isWhitespace l && headOkB Char.isWhitespace l.reverse

/-- No `'-'` character occurs in the list. -/
def noDashB (l : List Char) : Bool := l.all (fun c => !(c == '-'))

/-! ## Plural-forms parser (`parse_plural_forms` — identical in sync.py,
create_languages_weblate.py and create_languages_weblate_v2.py)

The two `re.search` calls are embedded as leftmost-match scanners.  The
pattern pieces `\s*=\s*(\d+)` and `\s*=\s*([^;]+)` backtrack deterministically
except in one case: when everything between `=` and the next `;` (or the end)
is whitespace, `\s*` gives one character back and `([^;]+)` captures that
single whitespace character.  That case is modelled explicitly. -/

/-- Case-insensitive literal match (`re.IGNORECASE` over ASCII): on success
returns the rest of the input after the literal. -/
def ciMatch : List Char → List Char → Option (List Char)
  | [], rest => some rest
  | _ :: _, [] => none
  | p :: ps, c :: cs => if p.toLower = c.toLower then ciMatch ps cs else none

/-- Digit run to a natural number (Python `int` on the captured `\d+`). -/
def digitsToNat (l : List Char) : Nat :=
  l.foldl (fun acc c => acc * 10 + (c.toNat - 48)) 0

/-- Try `nplurals\s*=\s*(\d+)` anchored at the start of `s`. -/
def tryNpluralsAt (s : List Char) : Option Nat :=
  match ciMatch "nplurals".toList s with
  | none => none
  | some r1 =>
    match r1.dropWhile Char.isWhitespace with
    | '=' :: r2 =>
      let digits := (r2.dropWhile Char.isWhitespace).takeWhile Char.isDigit
      if digits.isEmpty then none else some (digitsToNat digits)
    | _ => none

/-- Leftmost match of `nplurals\s*=\s*(\d+)` (the first `re.search`). -/
def searchNplurals : List Char → Option Nat
  | [] => none
  | s@(_ :: rest) =>
    match tryNpluralsAt s with
    | some n => some n
    | none => searchNplurals rest

/-- Try `plural\s*=\s*([^;]+)` anchored at the start of `s`; returns the
captured characters. -/
def tryPluralAt (s : List Char) : Option (List Char) :=
  match ciMatch "plural".toList s with
  | none => none
  | some r1 =>
    match r1.dropWhile Char.isWhitespace with
    | '=' :: r2 =>
      let ws := r2.takeWhile Char.isWhitespace
      let cap := (r2.dropWhile Char.isWhitespace).takeWhile (fun c => !(c == ';'))
      if !cap.isEmpty then some cap
      else if !ws.isEmpty then some [ws.getLastD ' ']
      else none
    | _ => none

/-- Leftmost match of `plural\s*=\s*([^;]+)` (the second `re.search`). -/
def searchPluralExpr : List Char → Option (List Char)
  | [] => none
  | s@(_ :: rest) =>
    match tryPluralAt s with
    | some cap => some cap
    | none => searchPluralExpr rest

/-- Count occurrences of a character in a list (Python `str.count`). -/
def countCharL (l : List Char) (ch : Char) : Nat :=
  (l.filter (fun c => c = ch)).length

/-- Python `str.count(ch)` on a `String`, for a single character `ch`. -/
def countChar (s : String) (ch : Char) : Nat := countCharL s.toList ch

/-- The post-processing of the captured expression:
`formula = m_for.group(1).strip()`; strip one fully-wrapping parenthesis
layer (`startswith "(" and endswith ")"`); `formula.rstrip(";").strip()`. -/
def cleanFormulaL (raw : List Char) : List Char :=
  let f0 := stripL raw
  let f1 := match f0 with
            | '(' :: rest =>
              if f0.getLast? = some ')' then stripL rest.dropLast else f0
            | _ => f0
  stripL (rstripByL (fun c => c = ';') f1)

/-- The number and cleaned formula extracted by `parse_plural_forms` before
its final emptiness/balance guard: `none` when the input is empty (falsy) or
either regex fails to match. -/
def extractedPartsL (pf : List Char) : Option (Nat × List Char) :=
  match pf with
  | [] => none
  | _ :: _ =>
    let s := rstripByL (fun c => c = ';') (stripL pf)
    match searchNplurals s, searchPluralExpr s with
    | some number, some rawCap => some (number, cleanFormulaL rawCap)
    | _, _ => none

/-- `parse_plural_forms` on the character list, including the final guard
`if not formula or formula.count("(") != formula.count(")"): return None`. -/
def parsePluralL (pf : List Char) : Option (Nat × List Char) :=
  match extractedPartsL pf with
  | none => none
  | some (number, formula) =>
    if formula.isEmpty || !(countCharL formula '(' == countCharL formula ')')
    then none
    else some (number, formula)

/-- The extraction stage of `parse_plural_forms` on a `String`. -/
def extractedParts (pf : String) : Option (Nat × String) :=
  match extractedPartsL pf.toList with
  | some (n, f) => some (n, String.mk f)
  | none => none

/-- `parse_plural_forms(pf)` from the source scripts. -/
def parse_plural_forms (pf : String) : Option (Nat × String) :=
  match parsePluralL pf.toList with
  | some (n, f) => some (n, String.mk f)
  | none => none

/-! ## Dictionaries and plural-rule resolution (`pick_plural` in sync.py) -/

/-- Python `dict.get(k)` over an association list with distinct keys. -/
def dictGet (m : List (String × String)) (k : String) : Option String :=
  (m.find? (fun p => p.1 == k)).map Prod.snd

/-- Python truthiness of an optional string: `None` and `""` are falsy. -/
def strTruthy : Option String → Bool
  | none => false
  | some s => !s.toList.isEmpty

/-- `dict.get(k)` filtered through Python truthiness: the value when it is
present and non-empty, else `none`. -/
def truthyGet (m : List (String × String)) (k : String) : Option String :=
  match dictGet m k with
  | some s => if s.toList.isEmpty then none else some s
  | none => none

/-- `code.split("_", 1)[0]`: the substring before the first underscore. -/
def basePart (code : String) : String :=
  String.mk (code.toList.takeWhile (fun c => !(c == '_')))

/-- `pick_plural(plural_map, code)` from sync.py: exact code first, base-code
fallback second (`if not pf` uses Python truthiness, so an empty entry also
falls back); returns `(number, formula, from_key)`. -/
def pick_plural (pm : List (String × String)) (code : String) :
    Option (Nat × String × String) :=
  match truthyGet pm code with
  | some pf =>
    match parse_plural_forms pf with
    | some (n, f) => some (n, f, code)
    | none => none
  | none =>
    match truthyGet pm (basePart code) with
    | some pf =>
      match parse_plural_forms pf with
      | some (n, f) => some (n, f, basePart code)
      | none => none
    | none => none

/-- Modelled from the spec's words for comparison (refinement): resolution
tries the entry for `c` whenever it is *present* (spec §4.5 "try
`plural_map[c]`; if absent, fall back to `plural_map[base(c)]`"), with no
empty-string fallback. -/
def pick_pluralSpecRule (pm : List (String × String)) (code : String) :
    Option (Nat × String × String) :=
  match dictGet pm code with
  | some pf =>
    match parse_plural_forms pf with
    | some (n, f) => some (n, f, code)
    | none => none
  | none =>
    match dictGet pm (basePart code) with
    | some pf =>
      match parse_plural_forms pf with
      | some (n, f) => some (n, f, basePart code)
      | none => none
    | none => none

/-! ## Remote records, alias matching and the reconciler (sync.py `main`) -/

/-- A remote language record as sync.py reads it from the directory service:
`name`, the `plural` object (its `number`/`formula` both possibly missing),
and the alias list (`obj.get("aliases") or []`). -/
structure RemoteLang where
  name : Option String
  pluralNumber : Option Nat
  pluralFormula : Option String
  hasPlural : Bool
  aliases : List String
deriving DecidableEq, Repr

/-- `cur = obj.get("plural") or {}; cur_num = cur.get("number")`. -/
def curNum (r : RemoteLang) : Option Nat :=
  if r.hasPlural then r.pluralNumber else none

/-- `cur_for = (cur.get("formula") or "").strip()`. -/
def curFor (r : RemoteLang) : String :=
  if r.hasPlural then pyStrip (match r.pluralFormula with
                               | some f => f
                               | none => "")
  else ""

/-- `any_alias_match(lang_obj, target_codes)` from sync.py: scan the record's
alias list in its given order, normalize each alias, return the first one
found in `target_codes`. -/
def any_alias_match (aliases : List String) (targets : List String) :
    Option String :=
  match aliases with
  | [] => none
  | a :: rest =>
    let ca := canon a
    if targets.contains ca then some ca else any_alias_match rest targets

/-- The catalogue for sync.py: an association list `code ↦ name` (the result
of `load_zanata_locales`); `target_codes = set(zanata.keys())`. -/
def targetsOf (zan : List (String × String)) : List String := zan.map Prod.fst

/-- The match of one remote record against the catalogue: exact normalized
code first, alias scan second (`z_code_for_this` in sync.py). -/
def matchedZ (zan : List (String × String)) (w : String) (obj : RemoteLang) :
    Option String :=
  let cw := canon w
  if (targetsOf zan).contains cw then some cw
  else any_alias_match obj.aliases (targetsOf zan)

/-- `need_name` and `need_plural` for a matched remote record:
`want_name = zanata[z]["name"]`, `have_name = (obj.get("name") or "").strip()`,
`picked = pick_plural(plural_map, z) or pick_plural(plural_map, cw)`. -/
def needFlags (zan pm : List (String × String)) (z w : String)
    (obj : RemoteLang) : Bool × Bool :=
  let wantName := match dictGet zan z with
                  | some nm => nm
                  | none => ""
  let haveName := pyStrip (match obj.name with
                           | some nm => nm
                           | none => "")
  let picked := match pick_plural pm z with
                | some p => some p
                | none => pick_plural pm (canon w)
  let needPlural := match picked with
                    | some (n, f, _) =>
                      !(curNum obj == some n && curFor obj == f)
                    | none => false
  let needName := !wantName.toList.isEmpty && !(wantName == haveName)
  (needName, needPlural)

/-- The classification sync.py gives one remote record. -/
inductive RClass where
  | update
  | skipMatched
  | skipExcluded
  | delete
deriving DecidableEq, Repr

/-- Per-record classification from sync.py's main loop: matched records are
kept (updated when a name/plural diff exists, else skipped); unmatched
records are protected when `canon(w_code)` is in the exclude list, else
deleted. -/
def classifyRemote (zan pm : List (String × String)) (exclude : List String)
    (w : String) (obj : RemoteLang) : RClass :=
  match matchedZ zan w obj with
  | some z =>
    let flags := needFlags zan pm z w obj
    if flags.1 || flags.2 then RClass.update else RClass.skipMatched
  | none =>
    if exclude.contains (canon w) then RClass.skipExcluded else RClass.delete

/-- `existing_codes_and_aliases`: the canonical codes of every remote record
plus the canonical forms of every alias of every remote record. -/
def existingCodesAliases (remote : List (String × RemoteLang)) : List String :=
  remote.map (fun p => canon p.1) ++
    remote.flatMap (fun p => p.2.aliases.map canon)

/-- The reconciliation plan sync.py computes: `updates ∪ skips` is
`keep_codes`, `deletes` is `delete_list` (raw remote codes), and `creates`
is `create_list` (catalogue codes matched by no remote code or alias). -/
structure Plan where
  updates : List String
  skips : List String
  deletes : List String
  creates : List String
deriving DecidableEq, Repr

/-- The plan computed by one run of the reconciler over the remote snapshot
`remote` (an association list: the `dict` of `list_languages`). -/
def planOf (zan pm : List (String × String)) (exclude : List String)
    (remote : List (String × RemoteLang)) : Plan :=
  { updates := (remote.filter
      (fun p => classifyRemote zan pm exclude p.1 p.2 == RClass.update)).map Prod.fst
  , skips := (remote.filter
      (fun p => classifyRemote zan pm exclude p.1 p.2 == RClass.skipMatched ||
                classifyRemote zan pm exclude p.1 p.2 == RClass.skipExcluded)).map Prod.fst
  , deletes := (remote.filter
      (fun p => classifyRemote zan pm exclude p.1 p.2 == RClass.delete)).map Prod.fst
  , creates := (zan.map Prod.fst).filter
      (fun z => !(existingCodesAliases remote).contains z) }

/-! ## Client payloads (`WeblateClient` in the three scripts) -/

/-- A JSON body for the languages API: each field is present (`some`) or
omitted entirely (`none`). -/
structure Payload where
  code : Option String
  name : Option String
  plural : Option (Nat × String)
  direction : Option String
deriving DecidableEq, Repr

/-- The body `create_language` posts in create_languages_weblate.py and
create_languages_weblate_v2.py: code, `name or code`, plural, and `direction`
only when it is `"ltr"` or `"rtl"`. -/
def createPayloadV2 (code name : String) (number : Nat) (formula : String)
    (direction : Option String) : Payload :=
  { code := some code
  , name := some (if name.toList.isEmpty then code else name)
  , plural := some (number, formula)
  , direction :=
      match direction with
      | some d => if d == "ltr" || d == "rtl" then some d else none
      | none => none }

/-- The body `create_language` posts in sync.py: code, name, plural — it
never carries a direction field. -/
def createPayloadSync (code name : String) (number : Nat) (formula : String) :
    Payload :=
  { code := some code
  , name := some name
  , plural := some (number, formula)
  , direction := none }

/-- The partial-update body built by `patch_language` (sync.py) and
`update_language` (create_languages_weblate.py, create_languages_weblate_v2.py)
— the three bodies are identical: `name` only when truthy, `plural` only when
the number is present and the formula truthy, never a direction. -/
def updatePayload (name : Option String) (number : Option Nat)
    (formula : Option String) : Payload :=
  { code := none
  , name :=
      match name with
      | some nm => if nm.toList.isEmpty then none else some nm
      | none => none
  , plural :=
      match number, formula with
      | some n, some f => if f.toList.isEmpty then none else some (n, f)
      | _, _ => none
  , direction := none }

/-- A payload with no field set (`if not payload:`). -/
def payloadEmpty (p : Payload) : Bool :=
  p.code == none && p.name == none && p.plural == none && p.direction == none

/-- `patch_language` / `update_language`: if the payload is empty, return
`(200, "")` without any HTTP request; otherwise issue the PATCH (modelled by
the oracle `send`) and return its status/body.  The boolean records whether a
request was made. -/
def patch_language (name : Option String) (number : Option Nat)
    (formula : Option String) (send : Payload → Nat × String) :
    (Nat × String) × Bool :=
  let payload := updatePayload name number formula
  if payloadEmpty payload then ((200, ""), false)
  else (send payload, true)

/-! ## Mutating calls and dry-run (sync.py main, create_languages_weblate.py
main loop) -/

/-- A mutating API call (POST / PATCH / DELETE). -/
inductive MutCall where
  | create (body : Payload)
  | patch (code : String) (body : Payload)
  | del (code : String)
deriving DecidableEq, Repr

/-- The PATCH sync.py issues for one matched remote record when applying:
name only when `need_name`, plural only when `need_plural`. -/
def syncPatchFor (zan pm : List (String × String)) (z w : String)
    (obj : RemoteLang) : MutCall :=
  let wantName := match dictGet zan z with
                  | some nm => nm
                  | none => ""
  let picked := match pick_plural pm z with
                | some p => some p
                | none => pick_plural pm (canon w)
  let flags := needFlags zan pm z w obj
  MutCall.patch w (updatePayload
    (if flags.1 then some wantName else none)
    (match picked with
     | some (n, _, _) => if flags.2 then some n else none
     | none => none)
    (match picked with
     | some (_, f, _) => if flags.2 then some f else none
     | none => none))

/-- The mutating calls sync.py issues for one remote record: a PATCH when the
record is matched, needs changes and `--apply` is set; nothing otherwise. -/
def syncRecordCalls (zan pm : List (String × String)) (exclude : List String)
    (applyMode : Bool) (w : String) (obj : RemoteLang) : List MutCall :=
  match matchedZ zan w obj with
  | some z =>
    let flags := needFlags zan pm z w obj
    if (flags.1 || flags.2) && applyMode then [syncPatchFor zan pm z w obj]
    else []
  | none => []

/-- The POST sync.py issues for one creation candidate when applying
(`create_language(code, want_name, num, formula)`); creation is skipped
when no plural rule resolves. -/
def syncCreateCalls (zan pm : List (String × String)) (applyMode : Bool)
    (code : String) : List MutCall :=
  match pick_plural pm code with
  | some (n, f, _) =>
    if applyMode then
      [MutCall.create (createPayloadSync code
        (match dictGet zan code with
         | some nm => nm
         | none => "") n f)]
    else []
  | none => []

/-- All mutating calls of one sync.py run: PATCHes over the remote records,
then POSTs over the creation candidates, then DELETEs. -/
def runSyncCalls (zan pm : List (String × String)) (exclude : List String)
    (remote : List (String × RemoteLang)) (applyMode : Bool) : List MutCall :=
  remote.flatMap (fun p => syncRecordCalls zan pm exclude applyMode p.1 p.2) ++
  (planOf zan pm exclude remote).creates.flatMap
    (syncCreateCalls zan pm applyMode) ++
  (planOf zan pm exclude remote).deletes.flatMap
    (fun code => if applyMode then [MutCall.del code] else [])

/-- One run of sync.py: the classification (plan) and the mutating calls. -/
def runSync (zan pm : List (String × String)) (exclude : List String)
    (remote : List (String × RemoteLang)) (applyMode : Bool) :
    Plan × List MutCall :=
  (planOf zan pm exclude remote,
   runSyncCalls zan pm exclude remote applyMode)

/-! ## The per-code step of create_languages_weblate.py's main loop -/

/-- How the create/update script classifies one catalogue code. -/
inductive StepClass where
  | created
  | updated
  | skippedNoPlural
  | lookupFailed
deriving DecidableEq, Repr

/-- The outcome of one loop iteration: its classification, the mutating
calls issued, and the per-code failure entries appended to `failures`. -/
structure StepResult where
  cls : StepClass
  calls : List MutCall
  failures : List (String × Nat × String)
deriving DecidableEq, Repr

/-- One iteration of create_languages_weblate.py's `main` loop for catalogue
code `code` with display name `zname` and RTL flag `rtl`:
resolve the plural rule (exact entry, base-language fallback), GET the
language (status `getStatus`, record `robj` when 200), then create / update /
record a lookup failure.  `mutStatus`/`mutBody` model the response to the
mutating call when one is made. -/
def stepV1 (pm : List (String × String)) (code zname : String) (rtl : Bool)
    (getStatus : Nat) (robj : RemoteLang) (applyMode : Bool)
    (mutStatus : Nat) (mutBody : String) : StepResult :=
  let name := pyStrip (if zname.toList.isEmpty then code else zname)
  let direction := if rtl then some "rtl" else none
  let pfStr := match truthyGet pm code with
               | some s => some s
               | none => truthyGet pm (basePart code)
  let parsed := parse_plural_forms (match pfStr with
                                    | some s => s
                                    | none => "")
  match parsed with
  | none => { cls := StepClass.skippedNoPlural, calls := [], failures := [] }
  | some (num, formula) =>
    if getStatus == 200 then
      let haveName := pyStrip (match robj.name with
                               | some nm => nm
                               | none => "")
      let needName := !name.toList.isEmpty && !(name == haveName)
      let needPlural := !(curNum robj == some num && curFor robj == formula)
      if applyMode then
        { cls := StepClass.updated
        , calls := [MutCall.patch code (updatePayload
            (if needName then some name else none)
            (if needPlural then some num else none)
            (if needPlural then some formula else none))]
        , failures :=
            if mutStatus == 200 || mutStatus == 202 then []
            else [(code, mutStatus, String.mk (mutBody.toList.take 300))] }
      else
        { cls := StepClass.updated, calls := [], failures := [] }
    else if getStatus == 404 then
      if applyMode then
        { cls := StepClass.created
        , calls := [MutCall.create (createPayloadV2 code name num formula
            direction)]
        , failures :=
            if mutStatus == 200 || mutStatus == 201 then []
            else [(code, mutStatus, String.mk (mutBody.toList.take 300))] }
      else
        { cls := StepClass.created, calls := [], failures := [] }
    else
      { cls := StepClass.lookupFailed, calls := []
      , failures := [(code, getStatus, "lookup_failed")] }

/-! ## Paginated listing -/

/-- One page of the languages listing: either a successful response with its
results and the presence of a continuation link, or a fetch error. -/
inductive PageResp (α : Type) where
  | ok (results : List α) (hasNext : Bool)
  | err
deriving DecidableEq, Repr

/-- `WeblateLanguageDeleter.get_all_languages` (delete_languages.py): follow
continuation links, and on a fetch error return everything collected so far
(the `except` branch), flagged `true`. -/
def deleterCollect {α : Type} : List (PageResp α) → List α × Bool
  | [] => ([], false)
  | PageResp.ok rs hasNext :: rest =>
    if hasNext then
      let r := deleterCollect rest
      (rs ++ r.1, r.2)
    else (rs, false)
  | PageResp.err :: _ => ([], true)

/-- `WeblateClient.list_languages` (sync.py): follow continuation links; a
fetch error raises (`raise_for_status` with no handler), modelled as `none` —
no partial result survives and the run aborts. -/
def syncCollect {α : Type} : List (PageResp α) → Option (List α)
  | [] => some []
  | PageResp.ok rs hasNext :: rest =>
    if hasNext then
      match syncCollect rest with
      | some acc => some (rs ++ acc)
      | none => none
    else some rs
  | PageResp.err :: _ => none

/-! ## The deletion tool's exclusion filtering
(`WeblateLanguageDeleter.delete_all_languages`) -/

/-- The split into `languages_to_delete` and `languages_to_skip`: a record
whose (raw) code is in `exclude_languages` is skipped, every other record is
deletion-eligible. -/
def deleterSplit (langs : List (String × String)) (exclude : List String) :
    List (String × String) × List (String × String) :=
  (langs.filter (fun l => !exclude.contains l.1),
   langs.filter (fun l => exclude.contains l.1))

/-! ## Concrete example records -/

/-- Everything in the union of remote and catalogue codes lies in exactly one
of the four classes. -/
def exactlyOne (a b c d : Prop) : Prop :=
  (a ∨ b ∨ c ∨ d) ∧ ¬(a ∧ b) ∧ ¬(a ∧ c) ∧ ¬(a ∧ d) ∧
    ¬(b ∧ c) ∧ ¬(b ∧ d) ∧ ¬(c ∧ d)

/-- A remote record with code `"iw"`-style aliasing: named Hebrew, no plural
object, alias list `["he"]`. -/
def exIw : RemoteLang :=
  { name := some "Hebrew", pluralNumber := none, pluralFormula := none
  , hasPlural := false, aliases := ["he"] }

/-- A remote record with no populated field. -/
def emptyRemote : RemoteLang :=
  { name := none, pluralNumber := none, pluralFormula := none
  , hasPlural := false, aliases := [] }

/-! # Theorems -/

/-! ### Character-level lemmas -/

theorem char_toNat_ofNatAux (n : Nat) (h : n.isValidChar) :
    (Char.ofNatAux n h).toNat = n := rfl

theorem char_toLower_cases (c : Char) :
    Char.toLower c = c ∨
      (97 ≤ (Char.toLower c).toNat ∧ (Char.toLower c).toNat ≤ 122) := by
  unfold Char.toLower
  by_cases h : c.toNat ≥ 65 ∧ c.toNat ≤ 90
  · rw [if_pos h]
    right
    have hv : (c.toNat + 32).isValidChar := by
      left
      omega
    rw [Char.ofNat, dif_pos hv, char_toNat_ofNatAux]
    omega
  · rw [if_neg h]
    left
    rfl

theorem toLower_eq_self_of_not_upper (c : Char)
    (h : ¬(c.toNat ≥ 65 ∧ c.toNat ≤ 90)) : Char.toLower c = c := by
  unfold Char.toLower
  exact if_neg h

theorem char_eq_iff_toNat (c d : Char) : c = d ↔ c.toNat = d.toNat := by
  constructor
  · intro h; rw [h]
  · intro h
    apply Char.ext
    apply UInt32.eq_of_toBitVec_eq
    apply BitVec.eq_of_toNat_eq
    exact h

theorem char_isWhitespace_iff (c : Char) :
    c.isWhitespace = true ↔
      c.toNat = 32 ∨ c.toNat = 9 ∨ c.toNat = 13 ∨ c.toNat = 10 := by
  unfold Char.isWhitespace
  simp only [Bool.or_eq_true, decide_eq_true_eq]
  rw [char_eq_iff_toNat c ' ', char_eq_iff_toNat c '\t',
    char_eq_iff_toNat c '\r', char_eq_iff_toNat c '\n']
  have e1 : (' ').toNat = 32 := rfl
  have e2 : ('\t').toNat = 9 := rfl
  have e3 : ('\r').toNat = 13 := rfl
  have e4 : ('\n').toNat = 10 := rfl
  rw [e1, e2, e3, e4]
  tauto

theorem toLower_isWhitespace (c : Char) :
    (Char.toLower c).isWhitespace = c.isWhitespace := by
  rcases char_toLower_cases c with h | ⟨h1, h2⟩
  · rw [h]
  · have hlow : (Char.toLower c).isWhitespace = false := by
      by_contra hx
      have := (char_isWhitespace_iff (Char.toLower c)).mp (by
        revert hx
        cases (Char.toLower c).isWhitespace <;> simp)
      omega
    have hc : c.isWhitespace = false := by
      by_contra hx
      have hws := (char_isWhitespace_iff c).mp (by
        revert hx
        cases c.isWhitespace <;> simp)
      -- a whitespace character is below code point 65, so `toLower` keeps it
      have : Char.toLower c = c := by
        apply toLower_eq_self_of_not_upper
        omega
      rw [this] at h1
      omega
    rw [hlow, hc]

theorem toLower_toLower (c : Char) :
    Char.toLower (Char.toLower c) = Char.toLower c := by
  rcases char_toLower_cases c with h | ⟨h1, h2⟩
  · rw [h, h]
  · exact toLower_eq_self_of_not_upper _ (by omega)

theorem toLower_ne_dash (c : Char) (h : c ≠ '-') : Char.toLower c ≠ '-' := by
  rcases char_toLower_cases c with he | ⟨h1, h2⟩
  · rw [he]; exact h
  · intro hx
    rw [char_eq_iff_toNat] at hx
    have : ('-').toNat = 45 := by decide
    omega

theorem replDash_ne_dash (c : Char) : replDash c ≠ '-' := by
  unfold replDash
  by_cases h : c = '-'
  · rw [if_pos h]; decide
  · rw [if_neg h]; exact h

theorem replDash_isWhitespace (c : Char) :
    (replDash c).isWhitespace = c.isWhitespace := by
  unfold replDash
  by_cases h : c = '-'
  · rw [if_pos h, h]; decide
  · rw [if_neg h]

/-! ### Stripping lemmas -/

theorem dropWhile_headOkB (p : Char → Bool) (l : List Char) :
    headOkB p (l.dropWhile p) = true := by
  induction l with
  | nil => rfl
  | cons c rest ih =>
    by_cases h : p c = true
    · rw [List.dropWhile_cons_of_pos h]; exact ih
    · rw [List.dropWhile_cons_of_neg h]
      simp only [headOkB]
      rw [Bool.not_eq_true] at h
      rw [h]
      rfl

theorem dropWhile_of_headOkB (p : Char → Bool) (l : List Char)
    (h : headOkB p l = true) : l.dropWhile p = l := by
  cases l with
  | nil => rfl
  | cons c rest =>
    simp only [headOkB] at h
    apply List.dropWhile_cons_of_neg
    simpa using h

theorem rstripByL_headOkB_reverse (p : Char → Bool) (l : List Char) :
    headOkB p (rstripByL p l).reverse = true := by
  unfold rstripByL
  rw [List.reverse_reverse]
  exact dropWhile_headOkB p l.reverse

theorem rstripByL_of_headOkB (p : Char → Bool) (l : List Char)
    (h : headOkB p l.reverse = true) : rstripByL p l = l := by
  unfold rstripByL
  rw [dropWhile_of_headOkB p l.reverse h, List.reverse_reverse]

theorem headOkB_of_pre (q : Char → Bool) {l₁ l₂ : List Char}
    (hp : l₁ <+: l₂) (h : headOkB q l₂ = true) : headOkB q l₁ = true := by
  cases l₁ with
  | nil => rfl
  | cons c t =>
    obtain ⟨r, hr⟩ := hp
    rw [← hr] at h
    exact h

theorem rstripByL_pre (p : Char → Bool) (l : List Char) :
    rstripByL p l <+: l := by
  unfold rstripByL
  have h : l.reverse.dropWhile p <:+ l.reverse := List.dropWhile_suffix p
  have h2 := List.reverse_prefix.mpr h
  rwa [List.reverse_reverse] at h2

theorem stripL_strippedB (l : List Char) : strippedB (stripL l) = true := by
  unfold strippedB
  rw [Bool.and_eq_true]
  constructor
  · exact headOkB_of_pre _ (rstripByL_pre _ _)
      (dropWhile_headOkB Char.isWhitespace l)
  · exact rstripByL_headOkB_reverse _ _

theorem stripL_of_strippedB (l : List Char) (h : strippedB l = true) :
    stripL l = l := by
  unfold strippedB at h
  rw [Bool.and_eq_true] at h
  unfold stripL lstripL
  rw [dropWhile_of_headOkB _ _ h.1]
  exact rstripByL_of_headOkB _ _ h.2

theorem headOkB_map_replDash (l : List Char) :
    headOkB Char.isWhitespace (l.map replDash) = headOkB Char.isWhitespace l := by
  cases l with
  | nil => rfl
  | cons c t => simp [headOkB, replDash_isWhitespace]

theorem map_replDash_strippedB (l : List Char) (h : strippedB l = true) :
    strippedB (l.map replDash) = true := by
  unfold strippedB at h ⊢
  rw [Bool.and_eq_true] at h ⊢
  refine ⟨?_, ?_⟩
  · rw [headOkB_map_replDash]; exact h.1
  · rw [← List.map_reverse, headOkB_map_replDash]; exact h.2

theorem lowerFirstL_strippedB (l : List Char) (h : strippedB l = true) :
    strippedB (lowerFirstL l) = true := by
  cases l with
  | nil => rfl
  | cons c t =>
    unfold strippedB at h ⊢
    rw [Bool.and_eq_true] at h ⊢
    obtain ⟨h1, h2⟩ := h
    constructor
    · simp only [lowerFirstL, headOkB] at h1 ⊢
      rw [toLower_isWhitespace]
      exact h1
    · simp only [lowerFirstL, List.reverse_cons] at h2 ⊢
      cases ht : t.reverse with
      | nil =>
        rw [ht] at h2
        simp only [List.nil_append, headOkB] at h2 ⊢
        rw [toLower_isWhitespace]
        exact h2
      | cons y r =>
        rw [ht] at h2
        simpa [headOkB] using h2

theorem map_replDash_noDash (l : List Char) : noDashB (l.map replDash) = true := by
  unfold noDashB
  rw [List.all_eq_true]
  intro c hc
  rw [List.mem_map] at hc
  obtain ⟨a, _, ha⟩ := hc
  have := replDash_ne_dash a
  rw [ha] at this
  simpa using this

theorem noDash_map_replDash_id (l : List Char) (h : noDashB l = true) :
    l.map replDash = l := by
  induction l with
  | nil => rfl
  | cons c t ih =>
    unfold noDashB at h
    rw [List.all_cons, Bool.and_eq_true] at h
    have hc : replDash c = c := by
      unfold replDash
      rw [if_neg]
      simpa using h.1
    simp only [List.map_cons]
    rw [hc, ih h.2]

theorem lowerFirstL_noDash (l : List Char) (h : noDashB l = true) :
    noDashB (lowerFirstL l) = true := by
  cases l with
  | nil => rfl
  | cons c t =>
    unfold noDashB at h ⊢
    rw [List.all_eq_true] at h ⊢
    intro x hx
    simp only [lowerFirstL, List.mem_cons] at hx
    rcases hx with hx | hx
    · have hc : c ≠ '-' := by simpa using h c (List.mem_cons_self c t)
      subst hx
      simpa using toLower_ne_dash c hc
    · exact h x (List.mem_cons_of_mem c hx)

theorem canonL_idem (l : List Char) : canonL (canonL l) = canonL l := by
  have hstr : strippedB ((stripL l).map replDash) = true :=
    map_replDash_strippedB _ (stripL_strippedB l)
  have hnd : noDashB ((stripL l).map replDash) = true := map_replDash_noDash _
  unfold canonL
  cases hx : (stripL l).map replDash with
  | nil => rfl
  | cons c t =>
    rw [hx] at hstr hnd
    have hstr2 := lowerFirstL_strippedB _ hstr
    have hnd2 := lowerFirstL_noDash _ hnd
    rw [stripL_of_strippedB _ hstr2, noDash_map_replDash_id _ hnd2]
    simp [lowerFirstL, toLower_toLower]

/-- `canon` is idempotent. -/
theorem canon_idem (x : String) : canon (canon x) = canon x := by
  unfold canon
  show String.mk (canonL (canonL x.toList)) = String.mk (canonL x.toList)
  rw [canonL_idem]

/-! ## C6 — the code normalizer -/

/-- C6 counterexample: the claim describes `canon` as replacing `-` with `_`
and lower-casing only the first character, but `canon` also strips
surrounding whitespace, so on `" A"` it returns `"a"` while the described
rule returns `" A"`. -/
theorem C6_canon_counterexample :
    canon " A" ≠ canonSpecRule " A" ∧
    canon " A" = "a" ∧ canonSpecRule " A" = " A" := by decide

/-- C6 (amended): `canon` is idempotent, `canon "tr-TR" = "tr_TR"`,
`canon "Ro" = "ro"`, empty input yields the empty string, and on every input
`canon` is exactly the claimed dash-replacement and first-character
lower-casing applied after stripping surrounding whitespace. -/
theorem C6_canon_normalizer (x : String) :
    canon (canon x) = canon x ∧
    canon "tr-TR" = "tr_TR" ∧ canon "Ro" = "ro" ∧ canon "" = "" ∧
    canon x = canonSpecRule (pyStrip x) :=
  ⟨canon_idem x, by decide, by decide, rfl, rfl⟩

/-! ## C4 — the plural-forms parser -/

/-- C4: `parse_plural_forms` round-trips the two standard forms, rejects the
mismatched-parenthesis example, and returns `none` on every input whose
extracted expression is empty or has an unequal count of `(` and `)`. -/
theorem C4_parse_plural (pf : String) (n : Nat) (f : String)
    (hx : extractedParts pf = some (n, f))
    (hbad : f = "" ∨ countChar f '(' ≠ countChar f ')') :
    parse_plural_forms "nplurals=2; plural=(n != 1);" = some (2, "n != 1") ∧
    parse_plural_forms "nplurals=1; plural=0;" = some (1, "0") ∧
    parse_plural_forms "nplurals=2; plural=(n!=1;" = none ∧
    parse_plural_forms pf = none := by
  refine ⟨by decide, by decide, by decide, ?_⟩
  unfold extractedParts at hx
  cases hE : extractedPartsL pf.toList with
  | none =>
    rw [hE] at hx
    simp at hx
  | some p =>
    obtain ⟨n2, fl⟩ := p
    rw [hE] at hx
    simp only [Option.some.injEq, Prod.mk.injEq] at hx
    obtain ⟨hn2, hfl⟩ := hx
    have hguard : (fl.isEmpty || !(countCharL fl '(' == countCharL fl ')')) = true := by
      rcases hbad with hb | hb
    -- `f = ""` forces the extracted character list to be empty
      · have : fl = [] := by
          have := hfl
          rw [hb] at this
          have h2 : (String.mk fl).data = ("" : String).data := by rw [this]
          simpa using h2
        rw [this]
        rfl
      · have hcc : countCharL fl '(' ≠ countCharL fl ')' := by
          have e1 : countChar f '(' = countCharL fl '(' := by
            rw [← hfl]
            rfl
          have e2 : countChar f ')' = countCharL fl ')' := by
            rw [← hfl]
            rfl
          rw [e1, e2] at hb
          exact hb
        rw [Bool.or_eq_true]
        right
        simpa using hcc
    have hP : parsePluralL pf.toList = none := by
      simp only [parsePluralL, hE]
      rw [if_pos hguard]
    unfold parse_plural_forms
    rw [hP]

/-- C4 witness: the mismatched-parenthesis input instantiates the universal
part (its extracted expression is `"(n!=1"`). -/
theorem C4_parse_plural_witness :
    parse_plural_forms "nplurals=2; plural=(n!=1;" = none :=
  (C4_parse_plural "nplurals=2; plural=(n!=1;" 2 "(n!=1"
    (by decide) (Or.inr (by decide))).2.2.2

/-! ## C5 — plural-rule resolution with base-language fallback -/

/-- C5 counterexample: the claim falls back to `base(c)` only when the entry
for `c` is *absent*, but the code (`if not pf:`) also falls back when the
entry is present and empty: with entries `{"ko_KR": "", "ko": rule}` the code
resolves `"ko_KR"` from `"ko"` while the claimed rule resolves nothing. -/
theorem C5_pick_plural_counterexample :
    pick_plural [("ko_KR", ""), ("ko", "nplurals=1; plural=0;")] "ko_KR"
      ≠ pick_pluralSpecRule [("ko_KR", ""), ("ko", "nplurals=1; plural=0;")] "ko_KR" ∧
    pick_plural [("ko_KR", ""), ("ko", "nplurals=1; plural=0;")] "ko_KR"
      = some (1, "0", "ko") ∧
    pick_pluralSpecRule [("ko_KR", ""), ("ko", "nplurals=1; plural=0;")] "ko_KR"
      = none := by decide

/-- C5 (amended): resolution first tries the map entry for `c`; if that is
absent **or empty** it falls back to the entry for `basePart c` (the part of
`c` before the first underscore), and a successful fallback is tagged with
origin key `basePart c`; resolving `"ko_KR"` against a map containing only
`"ko"` yields ko's rule with origin key `"ko"`. -/
theorem C5_pick_plural (pm : List (String × String)) (c : String) :
    (∀ s, truthyGet pm c = some s →
      pick_plural pm c =
        (parse_plural_forms s).map (fun q => (q.1, q.2, c))) ∧
    (truthyGet pm c = none →
      pick_plural pm c =
        (truthyGet pm (basePart c)).bind
          (fun s => (parse_plural_forms s).map (fun q => (q.1, q.2, basePart c)))) ∧
    pick_plural [("ko", "nplurals=1; plural=0;")] "ko_KR" = some (1, "0", "ko") := by
  refine ⟨?_, ?_, by decide⟩
  · intro s hs
    have hstep : pick_plural pm c =
        (match parse_plural_forms s with
         | some (n, f) => some (n, f, c)
         | none => none) := by
      unfold pick_plural
      rw [hs]
    rw [hstep]
    cases hq : parse_plural_forms s with
    | none => rfl
    | some q =>
      obtain ⟨qn, qf⟩ := q
      rfl
  · intro h0
    have hstep : pick_plural pm c =
        (match truthyGet pm (basePart c) with
         | some pf2 =>
           match parse_plural_forms pf2 with
           | some (n, f) => some (n, f, basePart c)
           | none => none
         | none => none) := by
      unfold pick_plural
      rw [h0]
    rw [hstep]
    cases hb : truthyGet pm (basePart c) with
    | none => rfl
    | some s =>
      have hred : (match some s with
                   | some pf2 =>
                     match parse_plural_forms pf2 with
                     | some (n, f) => some (n, f, basePart c)
                     | none => none
                   | none => (none : Option (Nat × String × String)))
          = (match parse_plural_forms s with
             | some (n, f) => some (n, f, basePart c)
             | none => none) := rfl
      rw [hred]
      simp only [Option.some_bind]
      cases hq : parse_plural_forms s with
      | none => rfl
      | some q =>
        obtain ⟨qn, qf⟩ := q
        rfl

/-! ## C3 — alias matching -/

theorem any_alias_match_eq_find (aliases targets : List String) :
    any_alias_match aliases targets
      = (aliases.map canon).find? (fun a => targets.contains a) := by
  induction aliases with
  | nil => rfl
  | cons a rest ih =>
    unfold any_alias_match
    by_cases h : targets.contains (canon a) = true
    · rw [if_pos h, List.map_cons, List.find?_cons_of_pos _ h]
    · rw [if_neg h, ih, List.map_cons, List.find?_cons_of_neg]
      simpa using h

/-- C3: for a remote record with no exact catalogue match, the matcher scans
the record's own alias list in source order, normalizing each alias, and the
first normalized alias contained in the catalogue's code set is the match;
the record with code `"iw"` and alias list `["he"]` is matched via `"he"`
(against a catalogue containing `"he"` but not `"iw"`) and is not deleted. -/
theorem C3_alias_precedence (aliases targets : List String)
    (zan : List (String × String)) (w : String) (obj : RemoteLang)
    (hw : (targetsOf zan).contains (canon w) = false) :
    any_alias_match aliases targets
      = (aliases.map canon).find? (fun a => targets.contains a) ∧
    matchedZ zan w obj = any_alias_match obj.aliases (targetsOf zan) ∧
    matchedZ [("he", "Hebrew")] "iw" exIw = some "he" ∧
    classifyRemote [("he", "Hebrew")] [] [] "iw" exIw ≠ RClass.delete := by
  refine ⟨any_alias_match_eq_find _ _, ?_, by decide, by decide⟩
  have hnot : ¬ (canon w ∈ targetsOf zan) := by simpa using hw
  simp [matchedZ, hw]
  intro hmem
  exact absurd hmem hnot

/-- C3 witness: the `"iw"`/`["he"]` record against the catalogue
`{"he": "Hebrew"}`. -/
theorem C3_alias_precedence_witness :
    matchedZ [("he", "Hebrew")] "iw" exIw = some "he" :=
  (C3_alias_precedence ["he"] ["he"] [("he", "Hebrew")] "iw" exIw
    (by decide)).2.2.1

/-! ## C2 — exclusion protection -/

theorem classify_ne_delete_of_excluded (zan pm : List (String × String))
    (exclude : List String) (w : String)
    (hx : exclude.contains (canon w) = true) (obj : RemoteLang) :
    classifyRemote zan pm exclude w obj ≠ RClass.delete := by
  unfold classifyRemote
  cases hm : matchedZ zan w obj with
  | some z =>
    show (if ((needFlags zan pm z w obj).1 || (needFlags zan pm z w obj).2) = true
          then RClass.update else RClass.skipMatched) ≠ RClass.delete
    split
    · decide
    · decide
  | none =>
    show (if exclude.contains (canon w) = true
          then RClass.skipExcluded else RClass.delete) ≠ RClass.delete
    rw [if_pos hx]
    decide

/-- C2: a remote record whose normalized code is in the exclude set is never
classified Delete (whatever the catalogue match), never appears in the plan's
delete set, and — when unmatched — is force-kept with no mutating call; the
deletion tool likewise never lists an excluded code for deletion. -/
theorem C2_exclusion (zan pm : List (String × String)) (exclude : List String)
    (remote : List (String × RemoteLang)) (w : String) (obj : RemoteLang)
    (am : Bool) (langs : List (String × String)) (excl2 : List String)
    (code nm : String)
    (hx : exclude.contains (canon w) = true)
    (hc : excl2.contains code = true) :
    classifyRemote zan pm exclude w obj ≠ RClass.delete ∧
    w ∉ (planOf zan pm exclude remote).deletes ∧
    (matchedZ zan w obj = none →
      classifyRemote zan pm exclude w obj = RClass.skipExcluded ∧
      syncRecordCalls zan pm exclude am w obj = []) ∧
    (code, nm) ∉ (deleterSplit langs excl2).1 := by
  refine ⟨classify_ne_delete_of_excluded zan pm exclude w hx obj, ?_, ?_, ?_⟩
  · intro hmem
    unfold planOf at hmem
    simp only [List.mem_map, List.mem_filter] at hmem
    obtain ⟨p, ⟨hp, hcls⟩, hw⟩ := hmem
    rw [beq_iff_eq] at hcls
    rw [hw] at hcls
    exact classify_ne_delete_of_excluded zan pm exclude w hx p.2 hcls
  · intro hm
    constructor
    · unfold classifyRemote
      rw [hm]
      show (if exclude.contains (canon w) = true
            then RClass.skipExcluded else RClass.delete) = RClass.skipExcluded
      rw [if_pos hx]
    · unfold syncRecordCalls
      rw [hm]
  · intro hmem
    unfold deleterSplit at hmem
    simp only [List.mem_filter] at hmem
    obtain ⟨_, hno⟩ := hmem
    rw [hc] at hno
    simp at hno

/-- C2 witness: the excluded code `"xx"` (unmatched) is kept and never
deleted; the deleter skips an excluded `("en", "English")` record. -/
theorem C2_exclusion_witness :
    classifyRemote [] [] ["xx"] "xx" emptyRemote ≠ RClass.delete ∧
    classifyRemote [] [] ["xx"] "xx" emptyRemote = RClass.skipExcluded ∧
    ("en", "English") ∉ (deleterSplit [("en", "English")] ["en"]).1 := by
  have h := C2_exclusion [] [] ["xx"] [] "xx" emptyRemote true
    [("en", "English")] ["en"] "en" "English" (by decide) (by decide)
  exact ⟨h.1, (h.2.2.1 (by decide)).1, h.2.2.2⟩

/-! ## C1 — partition of codes into the four plan sets -/

theorem assoc_val_unique {α : Type} (l : List (String × α))
    (hnd : (l.map Prod.fst).Nodup) (w : String) (o1 o2 : α)
    (h1 : (w, o1) ∈ l) (h2 : (w, o2) ∈ l) : o1 = o2 := by
  induction l with
  | nil => cases h1
  | cons p rest ih =>
    rw [List.map_cons, List.nodup_cons] at hnd
    rcases List.mem_cons.mp h1 with e1 | m1 <;>
      rcases List.mem_cons.mp h2 with e2 | m2
    · exact congrArg Prod.snd (e1.trans e2.symm)
    · exfalso
      have hx : w ∈ List.map Prod.fst rest := List.mem_map_of_mem Prod.fst m2
      apply hnd.1
      rw [← e1]
      exact hx
    · exfalso
      have hx : w ∈ List.map Prod.fst rest := List.mem_map_of_mem Prod.fst m1
      apply hnd.1
      rw [← e2]
      exact hx
    · exact ih hnd.2 m1 m2

theorem mem_filtered_map (remote : List (String × RemoteLang))
    (q : String → RemoteLang → Bool) (w : String) :
    w ∈ (remote.filter (fun p => q p.1 p.2)).map Prod.fst ↔
      ∃ o, (w, o) ∈ remote ∧ q w o = true := by
  simp only [List.mem_map, List.mem_filter]
  constructor
  · rintro ⟨p, ⟨hp, hq⟩, hw⟩
    subst hw
    exact ⟨p.2, hp, hq⟩
  · rintro ⟨o, ho, hq⟩
    exact ⟨(w, o), ⟨ho, hq⟩, rfl⟩

theorem canon_mem_existing (remote : List (String × RemoteLang))
    (w : String) (obj : RemoteLang) (hin : (w, obj) ∈ remote) :
    canon w ∈ existingCodesAliases remote := by
  unfold existingCodesAliases
  rw [List.mem_append]
  left
  rw [List.mem_map]
  exact ⟨(w, obj), hin, rfl⟩

/-- C1 counterexample: with remote `{"iw" ↦ (aliases ["he"])}` and catalogue
`{"he"}`, the catalogue code `"he"` appears in the union of remote and
catalogue codes but in none of the four plan sets: the matched record is
kept under its remote code `"iw"`. -/
theorem C1_partition_counterexample :
    "he" ∈ targetsOf [("he", "Hebrew")] ∧
    ¬ exactlyOne
      ("he" ∈ (planOf [("he", "Hebrew")] [] [] [("iw", exIw)]).creates)
      ("he" ∈ (planOf [("he", "Hebrew")] [] [] [("iw", exIw)]).updates)
      ("he" ∈ (planOf [("he", "Hebrew")] [] [] [("iw", exIw)]).skips)
      ("he" ∈ (planOf [("he", "Hebrew")] [] [] [("iw", exIw)]).deletes) := by
  constructor
  · decide
  · unfold exactlyOne
    decide

/-- C1 (amended): when the remote snapshot's codes are distinct and the
catalogue's codes are canonical, every remote code lands in exactly one of
{Update, Skip, Delete} and in no other set, and every catalogue code not
matched by any remote code or alias lands in Create alone; a catalogue code
whose canonical form is matched by a remote code or alias is represented by
the matched remote record's entry instead of appearing under its own code. -/
theorem C1_partition (zan pm : List (String × String)) (exclude : List String)
    (remote : List (String × RemoteLang))
    (hr : (remote.map Prod.fst).Nodup)
    (hz : ∀ z ∈ zan.map Prod.fst, canon z = z) :
    (∀ w obj, (w, obj) ∈ remote →
      exactlyOne (w ∈ (planOf zan pm exclude remote).creates)
        (w ∈ (planOf zan pm exclude remote).updates)
        (w ∈ (planOf zan pm exclude remote).skips)
        (w ∈ (planOf zan pm exclude remote).deletes)) ∧
    (∀ z ∈ zan.map Prod.fst,
      ((existingCodesAliases remote).contains z = false →
        exactlyOne (z ∈ (planOf zan pm exclude remote).creates)
          (z ∈ (planOf zan pm exclude remote).updates)
          (z ∈ (planOf zan pm exclude remote).skips)
          (z ∈ (planOf zan pm exclude remote).deletes)) ∧
      ((existingCodesAliases remote).contains z = true →
        z ∉ (planOf zan pm exclude remote).creates)) := by
  have hCmem : ∀ x, x ∈ (planOf zan pm exclude remote).creates ↔
      (x ∈ zan.map Prod.fst ∧
        (!(existingCodesAliases remote).contains x) = true) := by
    intro x
    show x ∈ (zan.map Prod.fst).filter
      (fun z => !(existingCodesAliases remote).contains z) ↔ _
    rw [List.mem_filter]
  have hUmem : ∀ x, x ∈ (planOf zan pm exclude remote).updates ↔
      ∃ o, (x, o) ∈ remote ∧
        (classifyRemote zan pm exclude x o == RClass.update) = true := by
    intro x
    exact mem_filtered_map remote
      (fun a b => classifyRemote zan pm exclude a b == RClass.update) x
  have hSmem : ∀ x, x ∈ (planOf zan pm exclude remote).skips ↔
      ∃ o, (x, o) ∈ remote ∧
        ((classifyRemote zan pm exclude x o == RClass.skipMatched) ||
         (classifyRemote zan pm exclude x o == RClass.skipExcluded)) = true := by
    intro x
    exact mem_filtered_map remote
      (fun a b => (classifyRemote zan pm exclude a b == RClass.skipMatched) ||
        (classifyRemote zan pm exclude a b == RClass.skipExcluded)) x
  have hDmem : ∀ x, x ∈ (planOf zan pm exclude remote).deletes ↔
      ∃ o, (x, o) ∈ remote ∧
        (classifyRemote zan pm exclude x o == RClass.delete) = true := by
    intro x
    exact mem_filtered_map remote
      (fun a b => classifyRemote zan pm exclude a b == RClass.delete) x
  constructor
  · intro w obj hin
    -- a remote code is never a creation candidate
    have hC : w ∉ (planOf zan pm exclude remote).creates := by
      intro hmem
      rw [hCmem w] at hmem
      obtain ⟨hwz, hnc⟩ := hmem
      have hcanon : canon w = w := hz w hwz
      have hex := canon_mem_existing remote w obj hin
      rw [hcanon] at hex
      have hcontra : (existingCodesAliases remote).contains w = true := by
        simpa using hex
      rw [hcontra] at hnc
      simp at hnc
    have hU : w ∈ (planOf zan pm exclude remote).updates ↔
        classifyRemote zan pm exclude w obj = RClass.update := by
      rw [hUmem w]
      constructor
      · rintro ⟨o, ho, hq⟩
        rw [assoc_val_unique remote hr w o obj ho hin] at hq
        simpa using hq
      · intro hq
        exact ⟨obj, hin, by simp [hq]⟩
    have hS : w ∈ (planOf zan pm exclude remote).skips ↔
        (classifyRemote zan pm exclude w obj = RClass.skipMatched ∨
         classifyRemote zan pm exclude w obj = RClass.skipExcluded) := by
      rw [hSmem w]
      constructor
      · rintro ⟨o, ho, hq⟩
        rw [assoc_val_unique remote hr w o obj ho hin] at hq
        simpa using hq
      · intro hq
        refine ⟨obj, hin, ?_⟩
        rcases hq with hq | hq <;> simp [hq]
    have hD : w ∈ (planOf zan pm exclude remote).deletes ↔
        classifyRemote zan pm exclude w obj = RClass.delete := by
      rw [hDmem w]
      constructor
      · rintro ⟨o, ho, hq⟩
        rw [assoc_val_unique remote hr w o obj ho hin] at hq
        simpa using hq
      · intro hq
        exact ⟨obj, hin, by simp [hq]⟩
    unfold exactlyOne
    cases hcl : classifyRemote zan pm exclude w obj <;>
      simp [hU, hS, hD, hcl, hC]
  · intro z hzmem
    constructor
    · intro hnc
      have hno : ∀ o, (z, o) ∉ remote := by
        intro o ho
        have hex := canon_mem_existing remote z o ho
        rw [hz z hzmem] at hex
        have : (existingCodesAliases remote).contains z = true := by
          simpa using hex
        rw [this] at hnc
        cases hnc
      have hC : z ∈ (planOf zan pm exclude remote).creates := by
        rw [hCmem z]
        exact ⟨hzmem, by rw [hnc]; rfl⟩
      have hU : z ∉ (planOf zan pm exclude remote).updates := by
        rw [hUmem z]
        rintro ⟨o, ho, _⟩
        exact hno o ho
      have hS : z ∉ (planOf zan pm exclude remote).skips := by
        rw [hSmem z]
        rintro ⟨o, ho, _⟩
        exact hno o ho
      have hD : z ∉ (planOf zan pm exclude remote).deletes := by
        rw [hDmem z]
        rintro ⟨o, ho, _⟩
        exact hno o ho
      unfold exactlyOne
      tauto
    · intro hcon hmem
      rw [hCmem z] at hmem
      rw [hcon] at hmem
      rcases hmem with ⟨_, hbad⟩
      cases hbad

/-- C1 witness: a concrete run — remote `{"en"}` matched exactly, catalogue
`{"en", "fr"}`, `"fr"` unmatched — instantiating both parts. -/
theorem C1_partition_witness :
    exactlyOne
      ("en" ∈ (planOf [("en", "English"), ("fr", "French")] [] []
        [("en", emptyRemote)]).creates)
      ("en" ∈ (planOf [("en", "English"), ("fr", "French")] [] []
        [("en", emptyRemote)]).updates)
      ("en" ∈ (planOf [("en", "English"), ("fr", "French")] [] []
        [("en", emptyRemote)]).skips)
      ("en" ∈ (planOf [("en", "English"), ("fr", "French")] [] []
        [("en", emptyRemote)]).deletes) ∧
    exactlyOne
      ("fr" ∈ (planOf [("en", "English"), ("fr", "French")] [] []
        [("en", emptyRemote)]).creates)
      ("fr" ∈ (planOf [("en", "English"), ("fr", "French")] [] []
        [("en", emptyRemote)]).updates)
      ("fr" ∈ (planOf [("en", "English"), ("fr", "French")] [] []
        [("en", emptyRemote)]).skips)
      ("fr" ∈ (planOf [("en", "English"), ("fr", "French")] [] []
        [("en", emptyRemote)]).deletes) := by
  have h := C1_partition [("en", "English"), ("fr", "French")] [] []
    [("en", emptyRemote)] (by decide) (by decide)
  exact ⟨h.1 "en" emptyRemote (by decide),
    (h.2 "fr" (by decide)).1 (by decide)⟩

/-! ## C8 — the direction field -/

/-- C8: a Create submission of the create/update scripts carries
`direction = "rtl"` exactly when the catalogue marked the code right-to-left
(the scripts pass `"rtl"` for RTL-flagged codes and `None` otherwise), an
Update (partial-update) payload never contains the direction field, and
sync.py's Create submission never carries a direction at all. -/
theorem C8_direction (rtl : Bool) (code name : String) (num : Nat)
    (formula : String) (n2 : Option String) (p2 : Option Nat)
    (f2 : Option String) :
    (createPayloadV2 code name num formula
        (if rtl then some "rtl" else none)).direction
      = (if rtl then some "rtl" else none) ∧
    (updatePayload n2 p2 f2).direction = none ∧
    (createPayloadSync code name num formula).direction = none := by
  refine ⟨?_, rfl, rfl⟩
  cases rtl <;> rfl

/-! ## C10 — the empty partial update issues no request -/

/-- C10: when no name is supplied (`None` or empty) and no complete plural
pair is supplied (number `None`, or formula `None`/empty), the partial-update
operation makes no HTTP request and returns status 200 with empty body. -/
theorem C10_patch_noop (name : Option String) (number : Option Nat)
    (formula : Option String) (send : Payload → Nat × String)
    (hn : name = none ∨ name = some "")
    (hp : number = none ∨ formula = none ∨ formula = some "") :
    patch_language name number formula send = ((200, ""), false) := by
  have hname : (updatePayload name number formula).name = none := by
    rcases hn with h | h <;> rw [h] <;> rfl
  have hplural : (updatePayload name number formula).plural = none := by
    rcases hp with h | h | h
    · rw [h]
      cases formula <;> rfl
    · rw [h]
      cases number <;> rfl
    · rw [h]
      cases number <;> rfl
  have hempty : payloadEmpty (updatePayload name number formula) = true := by
    unfold payloadEmpty
    rw [hname, hplural]
    rfl
  unfold patch_language
  rw [if_pos hempty]

/-- C10 witness: an empty name with an incomplete plural pair short-circuits
even against a failing oracle. -/
theorem C10_patch_noop_witness :
    patch_language (some "") none (some "x") (fun _ => (500, "boom"))
      = ((200, ""), false) :=
  C10_patch_noop (some "") none (some "x") (fun _ => (500, "boom"))
    (Or.inr rfl) (Or.inl rfl)

/-! ## C7 — dry-run versus apply -/

theorem flatMap_eq_nil_of {α β : Type} (l : List α) (f : α → List β)
    (h : ∀ x ∈ l, f x = []) : l.flatMap f = [] := by
  induction l with
  | nil => rfl
  | cons a t ih =>
    rw [List.flatMap_cons, h a (List.mem_cons_self a t), List.nil_append]
    exact ih (fun x hx => h x (List.mem_cons_of_mem a hx))

theorem syncRecordCalls_dry (zan pm : List (String × String))
    (exclude : List String) (w : String) (obj : RemoteLang) :
    syncRecordCalls zan pm exclude false w obj = [] := by
  unfold syncRecordCalls
  cases hm : matchedZ zan w obj with
  | some z =>
    show (if (((needFlags zan pm z w obj).1 || (needFlags zan pm z w obj).2)
          && false) = true
          then [syncPatchFor zan pm z w obj] else []) = []
    rw [Bool.and_false]
    rfl
  | none => rfl

theorem syncCreateCalls_dry (zan pm : List (String × String)) (code : String) :
    syncCreateCalls zan pm false code = [] := by
  unfold syncCreateCalls
  cases pick_plural pm code with
  | none => rfl
  | some t =>
    obtain ⟨n, f, k⟩ := t
    rfl

theorem delCalls_dry (code : String) :
    (if (false : Bool) = true then [MutCall.del code] else []) = [] := rfl

theorem runSyncCalls_dry (zan pm : List (String × String))
    (exclude : List String) (remote : List (String × RemoteLang)) :
    runSyncCalls zan pm exclude remote false = [] := by
  unfold runSyncCalls
  rw [flatMap_eq_nil_of _ _ (fun p _ => syncRecordCalls_dry zan pm exclude p.1 p.2),
    flatMap_eq_nil_of _ _ (fun code _ => syncCreateCalls_dry zan pm code),
    flatMap_eq_nil_of _ _ (fun code _ => delCalls_dry code)]
  rfl

theorem stepV1_cls_mode (pm : List (String × String)) (code zname : String)
    (rtl : Bool) (g : Nat) (robj : RemoteLang) (m1 m2 : Nat) (b1 b2 : String) :
    (stepV1 pm code zname rtl g robj true m1 b1).cls
      = (stepV1 pm code zname rtl g robj false m2 b2).cls := by
  simp only [stepV1]
  cases hp : parse_plural_forms
      (match
        (match truthyGet pm code with
         | some s => some s
         | none => truthyGet pm (basePart code)) with
       | some s => s
       | none => "") with
  | none => rfl
  | some t =>
    obtain ⟨num, formula⟩ := t
    by_cases h200 : (g == 200) = true
    · simp [h200]
    · by_cases h404 : (g == 404) = true
      · simp [h200, h404]
      · simp [h200, h404]

theorem stepV1_dry (pm : List (String × String)) (code zname : String)
    (rtl : Bool) (g : Nat) (robj : RemoteLang) (m : Nat) (b : String) :
    (stepV1 pm code zname rtl g robj false m b).calls = [] ∧
    ((stepV1 pm code zname rtl g robj false m b).failures ≠ [] →
      (stepV1 pm code zname rtl g robj false m b).cls
        = StepClass.lookupFailed) := by
  simp only [stepV1]
  cases hp : parse_plural_forms
      (match
        (match truthyGet pm code with
         | some s => some s
         | none => truthyGet pm (basePart code)) with
       | some s => s
       | none => "") with
  | none => exact ⟨rfl, fun h => absurd rfl h⟩
  | some t =>
    obtain ⟨num, formula⟩ := t
    by_cases h200 : (g == 200) = true
    · simp [h200]
    · by_cases h404 : (g == 404) = true
      · simp [h200, h404]
      · simp [h200, h404]

/-- C7 counterexample: in dry-run mode a failed lookup (HTTP 500) still
produces a per-code failure entry, so failure entries are not exclusive to
apply mode. -/
theorem C7_dry_run_counterexample :
    (stepV1 [("xx", "nplurals=1; plural=0;")] "xx" "X" false 500 emptyRemote
        false 0 "").failures = [("xx", 500, "lookup_failed")] ∧
    (stepV1 [("xx", "nplurals=1; plural=0;")] "xx" "X" false 500 emptyRemote
        false 0 "").failures ≠ [] := by decide

/-- C7 (amended): on identical inputs and remote responses the computed
classification is identical in dry-run and apply mode, and the mutating
calls (create/patch/delete) are issued only in apply mode; dry-run produces
no mutation-failure entries — its only possible per-code failure entries are
lookup failures, which occur in either mode. -/
theorem C7_dry_run (zan pm : List (String × String)) (exclude : List String)
    (remote : List (String × RemoteLang)) (code zname : String) (rtl : Bool)
    (g : Nat) (robj : RemoteLang) (m1 m2 : Nat) (b1 b2 : String) :
    (runSync zan pm exclude remote true).1
      = (runSync zan pm exclude remote false).1 ∧
    (runSync zan pm exclude remote false).2 = [] ∧
    (stepV1 pm code zname rtl g robj true m1 b1).cls
      = (stepV1 pm code zname rtl g robj false m2 b2).cls ∧
    (stepV1 pm code zname rtl g robj false m2 b2).calls = [] ∧
    ((stepV1 pm code zname rtl g robj false m2 b2).failures ≠ [] →
      (stepV1 pm code zname rtl g robj false m2 b2).cls
        = StepClass.lookupFailed) :=
  ⟨rfl, runSyncCalls_dry zan pm exclude remote,
    stepV1_cls_mode pm code zname rtl g robj m1 m2 b1 b2,
    (stepV1_dry pm code zname rtl g robj m2 b2).1,
    (stepV1_dry pm code zname rtl g robj m2 b2).2⟩

/-! ## C9 — pagination fetch errors -/

theorem deleterCollect_onErr {α : Type} (ps : List (List α))
    (rest : List (PageResp α)) :
    deleterCollect ((ps.map (fun r => PageResp.ok r true)) ++
        PageResp.err :: rest)
      = (ps.flatten, true) := by
  induction ps with
  | nil => rfl
  | cons r t ih =>
    have hstep : deleterCollect
        (((r :: t).map (fun x => PageResp.ok x true)) ++ PageResp.err :: rest)
        = (r ++ (deleterCollect ((t.map (fun x => PageResp.ok x true)) ++
            PageResp.err :: rest)).1,
           (deleterCollect ((t.map (fun x => PageResp.ok x true)) ++
            PageResp.err :: rest)).2) := rfl
    rw [hstep, ih, List.flatten_cons]

/-- C9 counterexample: sync.py's paginated lister has no error handler —
after one collected page a failing second page yields no partial result (the
exception aborts the run) instead of proceeding with the collected records. -/
theorem C9_pagination_counterexample :
    syncCollect [PageResp.ok ["en"] true, PageResp.err] = none ∧
    syncCollect [PageResp.ok ["en"] true, PageResp.err] ≠ some ["en"] :=
  ⟨rfl, by decide⟩

/-- C9 (amended): the deletion tool's lister returns everything collected
before a page-fetch error and the run proceeds with that partial result;
sync.py's lister instead propagates the error and the run aborts with no
partial result. -/
theorem C9_pagination (ps : List (List String)) (rs : List String)
    (rest : List (PageResp String)) :
    deleterCollect ((ps.map (fun r => PageResp.ok r true)) ++
        PageResp.err :: rest)
      = (ps.flatten, true) ∧
    syncCollect (PageResp.ok rs true :: PageResp.err :: rest) = none :=
  ⟨deleterCollect_onErr ps rest, rfl⟩

end WeblateSync
